import Mathlib

/-!
Verification development for the `ycrawler` news crawler (`src/crawler.py`).

The Python program is shallowly embedded: every pure computation of the crawler
(regex scanning, name sanitization/truncation, assoc-style dictionaries) becomes
an executable Lean function, and the stateful parts (the `Fetcher` object, the
filesystem, one orchestrator tick) become explicit state-passing functions.
Network I/O is abstracted by an oracle giving the transport's outcome for each
attempt; the single-threaded cooperative execution of one tick is linearized in
the order the event loop awaits the corresponding coroutines.
-/
set_option maxRecDepth 20000

/-! ## Basic character/string helpers

The crawler manipulates Python `str` values.  We model strings by their
character lists (`String.data`) and implement the handful of `str`/`re`
operations the crawler uses as executable scanners over `List Char`. -/
/-- The apostrophe character (ASCII 39), used by the story-block pattern. -/
def apos : Char := Char.ofNat 39

/-- First-occurrence splitter: `splitAtFirst pat s = some (pre, post)` iff
`s = pre ++ pat ++ post` and `pat` occurs nowhere earlier; `none` if `pat` does
not occur in `s`.  This is the semantics of a leftmost regex match whose lazy
gaps stop at the first occurrence of the next required literal. -/
def splitAtFirst (pat : List Char) : List Char → Option (List Char × List Char)
  | [] => if pat.isEmpty then some ([], []) else none
  | c :: rest =>
    if pat.isPrefixOf (c :: rest) then some ([], (c :: rest).drop pat.length)
    else
      match splitAtFirst pat rest with
      | some (pre, post) => some (c :: pre, post)
      | none => none

/-- Python `needle in haystack` substring test. -/
def pyContains (needle hay : String) : Bool :=
  (splitAtFirst needle.data hay.data).isSome

/-- Characters stripped by Python's default `str.strip()` (the ASCII subset,
which is all the crawler's URLs can contain). -/
def isPyWhitespace (c : Char) : Bool :=
  c == ' ' || c == '\t' || c == '\n' || c == '\r' || c == Char.ofNat 11 || c == Char.ofNat 12

/-- Python `str.strip()`. -/
def pyStrip (s : String) : String :=
  ⟨((s.data.dropWhile isPyWhitespace).reverse.dropWhile isPyWhitespace).reverse⟩

/-! ## Persister (`create_folder`, `write_file`, `save_page`)

Length policy constants from `crawler.py`. -/
def FOLDERNAME_MAXLENGTH : Nat := 127

def FILENAME_MAXLENGTH : Nat := 127

/-- Model of `hashlib.md5(name.encode()).hexdigest()` (external library): a
deterministic 128-bit digest of the input.  The crawler depends only on the
digest being a pure function of the input whose hex rendering has exactly 32
characters, which this model shares with MD5; the concrete mixing function is
not MD5's. -/
def digest128 (s : List Char) : Nat :=
  s.foldl (fun a c => (a * 65599 + c.toNat + 1) % 2 ^ 128) 88172645463325252

/-- Lowercase hex digit for a value `< 16`. -/
def hexDigit (n : Nat) : Char :=
  if n < 10 then Char.ofNat (48 + n) else Char.ofNat (87 + n)

/-- Hex rendering of the digest: exactly 32 lowercase hex characters. -/
def md5hex (s : String) : String :=
  ⟨(List.range 32).map (fun i => hexDigit (digest128 s.data / 16 ^ (31 - i) % 16))⟩

/-- `REGEX_SUB_NAME.sub('_', s)`: replace every colon, slash and hash
character by an underscore (the pattern `[:\/#]` matches single characters). -/
def subName (s : String) : String :=
  ⟨s.data.map (fun c => if c = ':' ∨ c = '/' ∨ c = '#' then '_' else c)⟩

/-- Model of `os.path.join(a, b)` for the relative second components the
crawler produces (sanitized names contain no slash, so the `b`-absolute case
of `os.path.join` cannot arise). -/
def pathJoin (a b : String) : String := a ++ "/" ++ b

/-- The folder path computed by `create_folder` before the existence check:
`os.path.join(root, foldername)`, shortened by prefix-plus-digest when its
length reaches `FOLDERNAME_MAXLENGTH`. -/
def derivePageDir (root foldername : String) : String :=
  let pd := pathJoin root foldername
  if FOLDERNAME_MAXLENGTH ≤ pd.data.length then
    ⟨pd.data.take (FOLDERNAME_MAXLENGTH - (md5hex pd).data.length) ++ (md5hex pd).data⟩
  else pd

/-- The file name computed by `write_file` before joining with the folder:
the name itself, shortened by prefix-plus-digest when its length reaches
`FILENAME_MAXLENGTH`. -/
def deriveFileName (filename : String) : String :=
  if FILENAME_MAXLENGTH ≤ filename.data.length then
    ⟨filename.data.take (FILENAME_MAXLENGTH - (md5hex filename).data.length)
      ++ (md5hex filename).data⟩
  else filename

/-- The local filesystem: the set of existing directories and the existing
files with their contents, in creation order.  The content-type distinction
(`'wb'` vs `'w'` mode) does not affect which bytes end up in the file, so
content is modelled as one string type. -/
structure FS where
  dirs : List String
  files : List (String × String)
  deriving DecidableEq

/-- Association lookup (first match), the model of Python `dict`/key access. -/
def lookupA {α : Type} (l : List (String × α)) (k : String) : Option α :=
  match l with
  | [] => none
  | (k', v) :: t => if k' = k then some v else lookupA t k

/-- `os.path.exists`: true for an existing directory or file path. -/
def existsPath (fs : FS) (p : String) : Bool :=
  fs.dirs.contains p || (lookupA fs.files p).isSome

/-- `create_folder(root, foldername)`: derive the (possibly shortened) path,
`os.mkdir` it only if it does not exist, return it. -/
def create_folder (root foldername : String) (fs : FS) : String × FS :=
  let page_dir := derivePageDir root foldername
  if existsPath fs page_dir then (page_dir, fs)
  else (page_dir, { fs with dirs := fs.dirs ++ [page_dir] })

/-- `write_file(page_dir, filename, content)`: derive the (possibly shortened)
file name, join it with the folder, and write the content only if the path
does not already exist.  The write-plus-flush is atomic in the cooperative
model: no other task observes a partially written file. -/
def write_file (page_dir filename content : String) (fs : FS) : FS :=
  let page_file := pathJoin page_dir (deriveFileName filename)
  if existsPath fs page_file then fs
  else { fs with files := fs.files ++ [(page_file, content)] }

/-- `save_page(fetch_courutine, root, foldername, filename)` after awaiting the
fetch: `None` content returns immediately, otherwise sanitize both hints,
create the folder and write the file. -/
def save_page (content : Option String) (root foldername filename : String) (fs : FS) : FS :=
  match content with
  | none => fs
  | some c =>
    let fol := subName foldername
    let fil := subName filename
    let pf := create_folder root fol fs
    write_file pf.1 fil c pf.2

/-- The full path `save_page` writes to for the given hints. -/
def derivedFilePath (root foldername filename : String) : String :=
  pathJoin (derivePageDir root (subName foldername)) (deriveFileName (subName filename))

/-- How many entries of an association list carry the given key. -/
def countKey {α : Type} (l : List (String × α)) (k : String) : Nat :=
  match l with
  | [] => 0
  | (k', _) :: t => (if k' = k then 1 else 0) + countKey t k

/-! ## Fetcher

`Fetcher.fetch` loops over at most `MAXIMUM_FETCHES` transport attempts.  The
outcome of each attempt is given by an oracle `tr : Nat → Attempt` (attempt
index to outcome), standing for `self.session.get` under `async_timeout`. -/
def MAXIMUM_FETCHES : Nat := 5

/-- Outcome of one transport attempt, naming the exception classes the source
imports: `ClientConnectionError`, `ServerDisconnectedError`, `TimeoutError`
(raised by `async_timeout` on expiry), `UnicodeDecodeError` (from
`response.text()`), `CancelledError`, or any other exception. -/
inductive Attempt where
  | success (content : String)
  | clientConnectionError (msg : String)
  | serverDisconnectedError (msg : String)
  | timeoutError (msg : String)
  | unicodeDecodeError (msg : String)
  | cancelledError
  | other (msg : String)
  deriving DecidableEq

/-- Whether the attempt outcome is caught by one of the two `except` clauses
of `Fetcher.fetch` (and hence consumes one retry). -/
def isTransient : Attempt → Bool
  | .success _ => false
  | .other _ => false
  | _ => true

/-- The message `Fetcher.fetch` stores in `self.error` for a caught attempt
(`str(error)` for the first clause, the literal `"Cancelled Task"` for
`CancelledError`); arbitrary for uncaught outcomes. -/
def transientMsg : Attempt → String
  | .clientConnectionError m => m
  | .serverDisconnectedError m => m
  | .timeoutError m => m
  | .unicodeDecodeError m => m
  | .cancelledError => "Cancelled Task"
  | .success _ => ""
  | .other _ => ""

/-- The mutable attributes of the `Fetcher` object. -/
structure FetcherState where
  errors : List (String × String)
  error : String
  downloaded_pages : List String
  black_list : List String
  jobs : List (String × Nat)
  deriving DecidableEq

/-- `Fetcher.__init__` (the session handle is the transport oracle). -/
def initFetcher : FetcherState :=
  { errors := [], error := "something wrong", downloaded_pages := [],
    black_list := [], jobs := [] }

/-- Python `dict.update({k: v})`: replace in place, or append a new entry. -/
def updateA (l : List (String × String)) (k v : String) : List (String × String) :=
  match l with
  | [] => [(k, v)]
  | (k', v') :: t => if k' = k then (k, v) :: t else (k', v') :: updateA t k v

/-- Replace the value of an existing key (Python item assignment). -/
def setA {α : Type} (l : List (String × α)) (k : String) (v : α) : List (String × α) :=
  match l with
  | [] => []
  | (k', v') :: t => if k' = k then (k, v) :: t else (k', v') :: setA t k v

/-- Python `dict.pop`-style removal of the first entry with the given key. -/
def removeA {α : Type} (l : List (String × α)) (k : String) : List (String × α) :=
  match l with
  | [] => []
  | (k', v') :: t => if k' = k then t else (k', v') :: removeA t k

/-- `Fetcher.increment_job_count`: `self.jobs[job_id] += 1` on a
`defaultdict(int)` — reading a missing key inserts the default `0` first. -/
def incJob (jobs : List (String × Nat)) (jobId : String) : List (String × Nat) :=
  match lookupA jobs jobId with
  | some n => setA jobs jobId (n + 1)
  | none => jobs ++ [(jobId, 0 + 1)]

/-- `Fetcher.get_downloaded_pages_by_job_id`: `self.jobs.pop(job_id)`.
`dict.pop` with no default does not consult the `defaultdict` factory: a
missing key raises `KeyError`. -/
def popJob (jobs : List (String × Nat)) (jobId : String) :
    Except String (Nat × List (String × Nat)) :=
  match lookupA jobs jobId with
  | some n => .ok (n, removeA jobs jobId)
  | none => .error "KeyError"

/-- The retry loop of `Fetcher.fetch`, starting at attempt index `i` with `n`
attempts left.  Returns `.error msg` when an attempt raises an exception not
matched by the `except` clauses (it propagates out of the call), otherwise
`.ok (content?, attemptsMade, state)`.  The attempt counter is model
instrumentation: the Python function does not return it, it records how many
transport attempts were consumed. -/
def fetchAux (tr : Nat → Attempt) (url jobId : String) :
    Nat → Nat → FetcherState → Except String (Option String × Nat × FetcherState)
  | i, 0, st =>
    .ok (none, i,
      { st with errors := updateA st.errors url st.error,
                black_list := st.black_list ++ [url] })
  | i, n + 1, st =>
    match tr i with
    | .success c =>
      .ok (some c, i + 1,
        { st with downloaded_pages := st.downloaded_pages ++ [url],
                  jobs := incJob st.jobs jobId })
    | .clientConnectionError m => fetchAux tr url jobId (i + 1) n { st with error := m }
    | .serverDisconnectedError m => fetchAux tr url jobId (i + 1) n { st with error := m }
    | .timeoutError m => fetchAux tr url jobId (i + 1) n { st with error := m }
    | .unicodeDecodeError m => fetchAux tr url jobId (i + 1) n { st with error := m }
    | .cancelledError => fetchAux tr url jobId (i + 1) n { st with error := "Cancelled Task" }
    | .other m => .error m

/-- `Fetcher.fetch(url, job_id)`. -/
def fetch (tr : Nat → Attempt) (url jobId : String) (st : FetcherState) :
    Except String (Option String × Nat × FetcherState) :=
  fetchAux tr url jobId 0 MAXIMUM_FETCHES st

/-- The error stored in `self.error` after consuming `n` transient attempts
starting at index `i`, when it was `e0` before: the message of the last
consumed attempt, or `e0` when no attempt was consumed. -/
def lastTransientMsg (tr : Nat → Attempt) (i : Nat) (e0 : String) : Nat → String
  | 0 => e0
  | n + 1 => transientMsg (tr (i + n))

/-! ## Extractor

The fixed regex literals of `crawler.py`, as character lists.  The patterns
are scanned with first-occurrence semantics: `REGEX_TOP_URLS` and
`REGEX_COMMENTSPAN` use lazy gaps (`[\s\S]*?`, `(.*?)`), so on the markup
shapes the properties quantify over — where each required literal's first
occurrence is the one the engine settles on and no backtracking past it ever
succeeds differently — leftmost lazy matching is exactly "split at the first
occurrence of the next literal". -/
/-- `id='` — start of `REGEX_TOP_URLS`. -/
def patIdOpen : List Char := ['i', 'd', '='] ++ [apos]

/-- `'>` — closes the thread-id group (`\d+` is greedy, and the digit run is
followed by this literal). -/
def patIdClose : List Char := apos :: ['>']

/-- `<a href="` — opens the href capture of `REGEX_TOP_URLS` and `REGEX_HREF`. -/
def patHref : List Char := '<' :: "a href=\"".data

/-- `" class="storylink">` — closes the story-url capture. -/
def patStory : List Char := '"' :: " class=\"storylink\">".data

/-- `</a>` — end of one `REGEX_TOP_URLS` match. -/
def patAClose : List Char := '<' :: "/a>".data

/-- `<span class="commtext c00">` — start of `REGEX_COMMENTSPAN`. -/
def patComm : List Char := '<' :: "span class=\"commtext c00\">".data

/-- `</span>` — closes the comment-body capture. -/
def patSpanClose : List Char := '<' :: "/span>".data

/-- The `[\s\S]*?<a href="(.*?)" class="storylink">` middle of
`REGEX_TOP_URLS`: find the first `<a href="` and capture lazily up to the
first `" class="storylink">` after it.  The capture group is `(.*?)` and
`REGEX_TOP_URLS` is compiled without `re.DOTALL`, so `.` cannot match a
newline: when a newline precedes the first closing literal, every later
closing literal is also unreachable for this anchor, the attempt at this
anchor fails, and the engine backtracks the lazy gap to the next `<a href="`
occurrence (the literal cannot overlap itself).  When no anchor works, no
later overall match attempt can complete either, since its candidate anchors
are a subset of those already tried. -/
def findStoryUrl : Nat → List Char → Option (List Char × List Char)
  | 0, _ => none
  | fuel + 1, s =>
    match splitAtFirst patHref s with
    | none => none
    | some (_, r) =>
      match splitAtFirst patStory r with
      | none => none
      | some (url, r2) =>
        if '\n' ∈ url then findStoryUrl fuel r else some (url, r2)

/-- `REGEX_TOP_URLS.finditer`: scan for `id='`, take the greedy digit run
(retrying from after the `id='` when it is empty or not followed by `'>`),
then find the anchor and its newline-free story-url capture
(`findStoryUrl`), and require a following `</a>` before resuming after it.
When a required literal never occurs in the rest of the page (or no anchor
admits a newline-free capture), no later match attempt can complete either,
so scanning stops.  The fuel argument only funds termination; one unit is
consumed per `id='` occurrence, so the page length plus one always
suffices. -/
def extractTopAux : Nat → List Char → List (String × String)
  | 0, _ => []
  | fuel + 1, s =>
    match splitAtFirst patIdOpen s with
    | none => []
    | some (_, r1) =>
      if r1.takeWhile Char.isDigit = [] then extractTopAux fuel r1
      else if patIdClose.isPrefixOf (r1.dropWhile Char.isDigit) then
        match findStoryUrl (fuel + 1)
            ((r1.dropWhile Char.isDigit).drop patIdClose.length) with
        | none => []
        | some (url, r4) =>
          match splitAtFirst patAClose r4 with
          | none => []
          | some (_, r5) =>
            (⟨r1.takeWhile Char.isDigit⟩, ⟨url⟩) :: extractTopAux fuel r5
      else extractTopAux fuel r1

/-- The pure part of `get_top_urls`: the `(thread-id, story-url)` pairs of
`REGEX_TOP_URLS.finditer(response)`, in document order, duplicates kept. -/
def extractTopStories (page : String) : List (String × String) :=
  extractTopAux (page.data.length + 1) page.data

/-- `REGEX_COMMENTSPAN.finditer`: the bodies of the top-level comment spans,
each the lazy capture up to the first `</span>` after its marker. -/
def extractComments : Nat → List Char → List (List Char)
  | 0, _ => []
  | fuel + 1, s =>
    match splitAtFirst patComm s with
    | none => []
    | some (_, r1) =>
      match splitAtFirst patSpanClose r1 with
      | none => []
      | some (body, r2) => body :: extractComments fuel r2

/-- `REGEX_HREF.finditer` (`<a href="(.*?)".*?>`) over one comment body:
capture between `<a href="` and the first `"` after it, then require the
tag's closing `>` (the lazy `.*?>` tail settles on the first `>` after the
quote).  Both the capture and the tail use `.`, which without `re.DOTALL`
cannot match a newline: a newline before the first closing quote, or between
the quote and the first `>`, makes every later candidate unreachable for
this anchor, so the attempt fails and the engine retries from the next
`<a href="` occurrence.  On success, scanning resumes after the `>`. -/
def extractHrefs : Nat → List Char → List (List Char)
  | 0, _ => []
  | fuel + 1, s =>
    match splitAtFirst patHref s with
    | none => []
    | some (_, r1) =>
      match splitAtFirst ['"'] r1 with
      | none => []
      | some (link, r2) =>
        if '\n' ∈ link then extractHrefs fuel r1
        else
          match splitAtFirst ['>'] r2 with
          | none => []
          | some (mid, r3) =>
            if '\n' ∈ mid then extractHrefs fuel r1
            else link :: extractHrefs fuel r3

/-- Model of `html.unescape` (external library), restricted to the five
predefined XML entities; the library's larger entity table is irrelevant to
the claims, which only need that the function is applied to every link. -/
def htmlUnescapeAux : Nat → List Char → List Char
  | 0, s => s
  | _ + 1, [] => []
  | fuel + 1, c :: rest =>
    if c = '&' then
      if "amp;".data.isPrefixOf rest then '&' :: htmlUnescapeAux fuel (rest.drop 4)
      else if "lt;".data.isPrefixOf rest then '<' :: htmlUnescapeAux fuel (rest.drop 3)
      else if "gt;".data.isPrefixOf rest then '>' :: htmlUnescapeAux fuel (rest.drop 3)
      else if "quot;".data.isPrefixOf rest then '"' :: htmlUnescapeAux fuel (rest.drop 5)
      else if ("#39;").data.isPrefixOf rest then apos :: htmlUnescapeAux fuel (rest.drop 4)
      else c :: htmlUnescapeAux fuel rest
    else c :: htmlUnescapeAux fuel rest

def htmlUnescape (s : String) : String :=
  ⟨htmlUnescapeAux s.data.length s.data⟩

/-- The comment bodies of a comments page. -/
def commentBodies (page : String) : List (List Char) :=
  extractComments (page.data.length + 1) page.data

/-- The hrefs of one comment body. -/
def hrefsIn (body : List Char) : List String :=
  (extractHrefs (body.length + 1) body).map (fun l => (⟨l⟩ : String))

/-- The raw comment links of a page: per comment body, every href target, in
document order (`link.group(1)` before `html.unescape`). -/
def commentLinksRaw (page : String) : List String :=
  (commentBodies page).flatMap hrefsIn

/-- The comment links `download_page_with_comments` actually fetches:
`html.unescape(link.group(1))` for every href of every comment body. -/
def commentLinks (page : String) : List String :=
  (commentBodies page).flatMap (fun b => (hrefsIn b).map htmlUnescape)

/-! ## Orchestrator (`get_top_urls`, `download_page_with_comments`,
`one_iteration`)

One tick is linearized in the order the event loop awaits the coroutines of
`one_iteration`: the listing fetch; then, per selected story, the
comment-thread fetch (awaited before the gather), then the story-page fetch
and save (the first gathered task), then each comment-link fetch and save in
document order.  Which URLs are in which collection afterwards does not depend
on this admissible interleaving, because each fetch's read-modify-write steps
contain no suspension point.  The tick-level transport oracle
`net : String → Option String` gives, per URL, a first-attempt success with
the page content, or `none` for a transport that fails every attempt with a
connection error. -/
def BASE_URL : String := "https://news.ycombinator.com/"

/-- `COMMENTS_URL.format(comments_id)`. -/
def commentsUrlOf (commentsId : String) : String :=
  "https://news.ycombinator.com/item?id=" ++ commentsId

/-- Per-attempt outcomes induced by the tick-level oracle. -/
def trOf (net : String → Option String) (url : String) : Nat → Attempt :=
  fun _ =>
    match net url with
    | some c => .success c
    | none => .clientConnectionError "Cannot connect to host"

/-- State of the whole process: the `Fetcher` object, the filesystem, and (as
model instrumentation, not program state) the trace of URLs for which a fetch
call was issued, in issue order. -/
structure CrawlState where
  fetcher : FetcherState
  fs : FS
  trace : List String
  deriving DecidableEq

def initCrawl : CrawlState :=
  { fetcher := initFetcher, fs := { dirs := [], files := [] }, trace := [] }

/-- One awaited `fetcher.fetch(url, job_id)` call at tick level.  With `trOf`
no attempt raises an unclassified exception, so the propagation branch is
unreachable; it is kept so the call shape matches `fetch`. -/
def tickFetch (net : String → Option String) (url jobId : String) (cs : CrawlState) :
    Option String × CrawlState :=
  match fetch (trOf net url) url jobId cs.fetcher with
  | .ok (c, _, f) => (c, { cs with fetcher := f, trace := cs.trace ++ [url] })
  | .error _ => (none, { cs with trace := cs.trace ++ [url] })

/-- `save_page` applied to the crawl state's filesystem. -/
def saveInto (content : Option String) (root foldername filename : String)
    (cs : CrawlState) : CrawlState :=
  { cs with fs := save_page content root foldername filename cs.fs }

/-- `download_page_with_comments(fetcher, job_id, root, url, comments_id)`.
The story-page coroutine is created first but only awaited inside the final
`gather`; the comment-thread fetch is awaited immediately, and when it yields
no content the function returns with the story-page coroutine never awaited —
no story fetch happens in that case. -/
def download_page_with_comments (net : String → Option String)
    (jobId root url commentsId : String) (cs : CrawlState) : CrawlState :=
  let c1 := tickFetch net (commentsUrlOf commentsId) jobId cs
  match c1.1 with
  | none => c1.2
  | some commentsPage =>
    let s1 := tickFetch net url jobId c1.2
    let cs3 := saveInto s1.1 root url url s1.2
    (commentLinks commentsPage).foldl
      (fun acc link =>
        let l1 := tickFetch net link jobId acc
        saveInto l1.1 root url link l1.2)
      cs3

/-- URL normalization of the fan-out loop: relative comment URLs
(`'item?id=' in url`) are made absolute against `BASE_URL`, then stripped. -/
def normalizeUrl (url : String) : String :=
  pyStrip (if pyContains "item?id=" url then BASE_URL ++ url else url)

/-- The fan-out filter of `one_iteration`: a `(thread-id, normalized-url)`
pair gets a sub-job only if its URL is in neither `downloaded_pages` nor
`black_list`.  All guards are evaluated against the state at task-creation
time: the loop creating the coroutines runs without suspension points, before
any sub-job starts. -/
def selectedStories (downloaded blackList : List String)
    (pairs : List (String × String)) : List (String × String) :=
  pairs.filter (fun q => !(downloaded.contains q.2 || blackList.contains q.2))

/-- One `one_iteration` job: fetch the listing (raising `CrawlerError` when it
yields no content — the error carries the state, which in Python survives in
the shared `Fetcher`), extract the top stories, fan out over the selected
ones, then read the job's counter once (`KeyError` propagates likewise). -/
def one_iteration (net : String → Option String) (root jobId : String)
    (cs : CrawlState) : Except (String × CrawlState) CrawlState :=
  let l1 := tickFetch net BASE_URL jobId cs
  match l1.1 with
  | none => .error ("Ошибка подключения к сайту новостей", l1.2)
  | some listing =>
    let pairs := (extractTopStories listing).map (fun p => (p.1, normalizeUrl p.2))
    let cs2 := (selectedStories l1.2.fetcher.downloaded_pages l1.2.fetcher.black_list
        pairs).foldl
      (fun acc p => download_page_with_comments net jobId root p.2 p.1 acc) l1.2
    match popJob cs2.fetcher.jobs jobId with
    | .ok q => .ok { cs2 with fetcher := { cs2.fetcher with jobs := q.2 } }
    | .error e => .error (e, cs2)

def tr6w : Nat → Attempt :=
  fun i => if i = 0 then .timeoutError "t0" else .other "boom"

/-! ## Story-block rendering and concrete crawl scenarios -/
/-- One well-formed story block of the listing page, as matched by
`REGEX_TOP_URLS`: `id='SID'><a href="URL" class="storylink">TITLE</a>`. -/
structure StoryBlock where
  sid : List Char
  url : List Char
  title : List Char

def renderBlock (b : StoryBlock) : List Char :=
  patIdOpen ++ b.sid ++ patIdClose ++ patHref ++ b.url ++ patStory ++ b.title ++ patAClose

def renderListing (bs : List StoryBlock) : List Char := (bs.map renderBlock).flatten

/-- Well-formedness of a story block: a nonempty all-digit thread id, a URL
free of double quotes (and hence of the closing literal) and of newlines
(which the `(.*?)` capture of `REGEX_TOP_URLS` cannot match, `.` excluding
`\n` without `re.DOTALL`), and a title free of angle brackets opening a
tag. -/
def WfStoryBlock (b : StoryBlock) : Prop :=
  b.sid ≠ [] ∧ (∀ c ∈ b.sid, c.isDigit = true) ∧ '"' ∉ b.url ∧ '\n' ∉ b.url ∧ '<' ∉ b.title

def storyBlock1 : StoryBlock := { sid := ['1'], url := "http://s1/".data, title := ['t'] }

def storyBlock2 : StoryBlock := { sid := ['2'], url := "http://s2/".data, title := ['t'] }

def listing1 : String := ⟨renderListing [storyBlock1]⟩

def listing2 : String := ⟨renderListing [storyBlock2]⟩

/-- A comments page with one top-level comment containing one link. -/
def commentsWithLink (link : String) : String :=
  ⟨patComm ++ patHref ++ link.data ++ ['"', '>'] ++ patSpanClose⟩

/-- A comments page with one top-level comment containing the same link
twice. -/
def commentsWithTwoLinks (link : String) : String :=
  ⟨patComm ++ patHref ++ link.data ++ ['"', '>']
    ++ patHref ++ link.data ++ ['"', '>'] ++ patSpanClose⟩

/-- Tick-1 transport: the listing serves story 1, whose comment thread links
`http://x/`; the story page succeeds, `http://x/` always fails. -/
def net1 : String → Option String := fun u =>
  if u = BASE_URL then some listing1
  else if u = commentsUrlOf "1" then some (commentsWithLink "http://x/")
  else if u = "http://s1/" then some "S1"
  else none

/-- Tick-2 transport: a fresh story 2 whose comment thread links the same
`http://x/` again. -/
def net2 : String → Option String := fun u =>
  if u = BASE_URL then some listing2
  else if u = commentsUrlOf "2" then some (commentsWithLink "http://x/")
  else if u = "http://s2/" then some "S2"
  else none

/-- Single-tick transport where one comment carries the same link twice and
every fetch succeeds. -/
def net5 : String → Option String := fun u =>
  if u = BASE_URL then some listing1
  else if u = commentsUrlOf "1" then some (commentsWithTwoLinks "http://x/")
  else some "P"

def afterTick1 : CrawlState :=
  match one_iteration net1 "r" "j1" initCrawl with
  | .ok cs => cs
  | .error e => e.2

def afterTick2 : CrawlState :=
  match one_iteration net2 "r" "j2" afterTick1 with
  | .ok cs => cs
  | .error e => e.2

def afterTick5 : CrawlState :=
  match one_iteration net5 "r" "j5" initCrawl with
  | .ok cs => cs
  | .error e => e.2

def fetchSuccessSt : FetcherState :=
  { initFetcher with downloaded_pages := ["u"], jobs := [("j", 1)] }

instance (b : StoryBlock) : Decidable (WfStoryBlock b) := by
  rw [WfStoryBlock]
  infer_instance

def storyBlockA : StoryBlock := { sid := ['7'], url := "http://a/".data, title := ['x'] }

def storyBlockB : StoryBlock := { sid := ['7'], url := "http://b/".data, title := ['y'] }

theorem isPrefixOf_eq_true_iff (l₁ l₂ : List Char) :
    l₁.isPrefixOf l₂ = true ↔ ∃ t, l₂ = l₁ ++ t := by
  induction l₁ generalizing l₂ with
  | nil => simp [List.isPrefixOf]
  | cons a as ih =>
    cases l₂ with
    | nil => simp [List.isPrefixOf]
    | cons b bs =>
      simp only [List.isPrefixOf, Bool.and_eq_true, beq_iff_eq, ih, List.cons_append,
        List.cons.injEq]
      constructor
      · rintro ⟨rfl, t, rfl⟩; exact ⟨t, rfl, rfl⟩
      · rintro ⟨t, rfl, rfl⟩; exact ⟨rfl, t, rfl⟩

theorem isPrefixOf_append_eq_true (l t : List Char) : l.isPrefixOf (l ++ t) = true :=
  (isPrefixOf_eq_true_iff l (l ++ t)).mpr ⟨t, rfl⟩

theorem splitAtFirst_of_eq_append (pat s t : List Char) (hp : pat ≠ [])
    (h : s = pat ++ t) : splitAtFirst pat s = some ([], t) := by
  subst h
  cases pat with
  | nil => exact absurd rfl hp
  | cons p pt =>
    show splitAtFirst (p :: pt) (p :: (pt ++ t)) = some ([], t)
    rw [splitAtFirst]
    rw [show p :: (pt ++ t) = (p :: pt) ++ t from rfl,
      isPrefixOf_append_eq_true (p :: pt) t]
    simp [List.drop_left]

theorem splitAtFirst_append_of_head_notMem (p : Char) (pt pre s : List Char)
    (hp : p ∉ pre) :
    splitAtFirst (p :: pt) (pre ++ s) =
      (splitAtFirst (p :: pt) s).map (fun q => (pre ++ q.1, q.2)) := by
  induction pre with
  | nil =>
    simp only [List.nil_append]
    cases h : splitAtFirst (p :: pt) s with
    | none => rfl
    | some q => cases q; rfl
  | cons a pre' ih =>
    have hpa : p ≠ a := fun h => hp (h ▸ List.mem_cons_self a pre')
    have hp' : p ∉ pre' := fun h => hp (List.mem_cons_of_mem a h)
    show splitAtFirst (p :: pt) (a :: (pre' ++ s)) = _
    rw [splitAtFirst]
    have hnpre : (p :: pt).isPrefixOf (a :: (pre' ++ s)) = false := by
      simp [List.isPrefixOf, hpa]
    rw [hnpre]
    simp only [Bool.false_eq_true, if_false]
    rw [ih hp']
    cases h : splitAtFirst (p :: pt) s with
    | none => rfl
    | some q => cases q; rfl

/-- First occurrence after a clean prefix: if the head character of the pattern
does not occur in `pre`, the leftmost match of `pat` in `pre ++ pat ++ post`
starts right after `pre`. -/
theorem splitAtFirst_first_occurrence (p : Char) (pt pre s post : List Char)
    (hp : p ∉ pre) (h : s = pre ++ (p :: pt) ++ post) :
    splitAtFirst (p :: pt) s = some (pre, post) := by
  subst h
  rw [List.append_assoc, splitAtFirst_append_of_head_notMem p pt pre _ hp,
    splitAtFirst_of_eq_append (p :: pt) _ post (by simp) rfl]
  simp

/-- If the pattern occurs nowhere in `s`, the splitter reports no match. -/
theorem splitAtFirst_eq_none (p : Char) (pt s : List Char)
    (h : ∀ pre post, s ≠ pre ++ (p :: pt) ++ post) :
    splitAtFirst (p :: pt) s = none := by
  induction s with
  | nil => simp [splitAtFirst]
  | cons c rest ih =>
    rw [splitAtFirst]
    have hnp : (p :: pt).isPrefixOf (c :: rest) = false := by
      cases hpre : (p :: pt).isPrefixOf (c :: rest) with
      | false => rfl
      | true =>
        obtain ⟨t, ht⟩ := (isPrefixOf_eq_true_iff _ _).mp hpre
        exact absurd ht (by simpa using h [] t)
    rw [hnp]
    simp only [Bool.false_eq_true, if_false]
    rw [ih (fun pre post hh => by
      exact h (c :: pre) post (by simp [hh]))]

theorem takeWhile_append_cons (p : Char → Bool) (l : List Char) (d : Char) (t : List Char)
    (hl : ∀ c ∈ l, p c = true) (hd : p d = false) :
    (l ++ d :: t).takeWhile p = l := by
  induction l with
  | nil => simp [List.takeWhile, hd]
  | cons a as ih =>
    have ha : p a = true := hl a (List.mem_cons_self a as)
    simp only [List.cons_append, List.takeWhile, ha, List.append_eq]
    rw [ih (fun c hc => hl c (List.mem_cons_of_mem a hc))]

theorem dropWhile_append_cons (p : Char → Bool) (l : List Char) (d : Char) (t : List Char)
    (hl : ∀ c ∈ l, p c = true) (hd : p d = false) :
    (l ++ d :: t).dropWhile p = d :: t := by
  induction l with
  | nil => simp [List.dropWhile, hd]
  | cons a as ih =>
    have ha : p a = true := hl a (List.mem_cons_self a as)
    simp only [List.cons_append, List.dropWhile, ha, List.append_eq]
    rw [ih (fun c hc => hl c (List.mem_cons_of_mem a hc))]

theorem md5hex_length (s : String) : (md5hex s).data.length = 32 := by
  simp [md5hex]

/-! ## Association-list lemmas for the job-counter table -/
theorem lookupA_append_of_none {α : Type} (l l2 : List (String × α)) (k : String)
    (h : lookupA l k = none) : lookupA (l ++ l2) k = lookupA l2 k := by
  induction l with
  | nil => rfl
  | cons a t ih =>
    obtain ⟨k', v⟩ := a
    rw [lookupA] at h
    by_cases hk : k' = k
    · simp [hk] at h
    · simp only [hk, if_false] at h
      simpa [lookupA, hk] using ih h

theorem setA_append_of_none {α : Type} (l : List (String × α)) (k : String) (n v : α)
    (h : lookupA l k = none) : setA (l ++ [(k, n)]) k v = l ++ [(k, v)] := by
  induction l with
  | nil => simp [setA]
  | cons a t ih =>
    obtain ⟨k', v'⟩ := a
    rw [lookupA] at h
    by_cases hk : k' = k
    · simp [hk] at h
    · simp only [hk, if_false] at h
      simp [setA, hk, ih h]

theorem removeA_append_of_none {α : Type} (l : List (String × α)) (k : String) (n : α)
    (h : lookupA l k = none) : removeA (l ++ [(k, n)]) k = l := by
  induction l with
  | nil => simp [removeA]
  | cons a t ih =>
    obtain ⟨k', v'⟩ := a
    rw [lookupA] at h
    by_cases hk : k' = k
    · simp [hk] at h
    · simp only [hk, if_false] at h
      simp [removeA, hk, ih h]

theorem incJob_iterate (jobs0 : List (String × Nat)) (jobId : String)
    (hid : lookupA jobs0 jobId = none) :
    ∀ n, 0 < n → (fun j => incJob j jobId)^[n] jobs0 = jobs0 ++ [(jobId, n)] := by
  intro n
  induction n with
  | zero => omega
  | succ m ih =>
    intro _
    rw [Function.iterate_succ_apply']
    by_cases hm : 0 < m
    · rw [ih hm]
      have hl : lookupA (jobs0 ++ [(jobId, m)]) jobId = some m := by
        rw [lookupA_append_of_none _ _ _ hid]; simp [lookupA]
      rw [incJob, hl]
      exact setA_append_of_none jobs0 jobId m (m + 1) hid
    · have hm0 : m = 0 := by omega
      subst hm0
      simp only [Function.iterate_zero_apply]
      rw [incJob, hid]

/-- C8: a job's counter holds the number of successful fetches attributed to
the job id; reading it via `get_downloaded_pages_by_job_id` removes the entry
in the same step, and a second read for the same job id raises `KeyError`
rather than returning zero. -/
theorem c8_job_counter_one_shot (jobs0 : List (String × Nat)) (jobId : String) (n : Nat)
    (hid : lookupA jobs0 jobId = none) (hn : 0 < n) :
    (fun j => incJob j jobId)^[n] jobs0 = jobs0 ++ [(jobId, n)]
    ∧ popJob (jobs0 ++ [(jobId, n)]) jobId = .ok (n, jobs0)
    ∧ popJob jobs0 jobId = .error "KeyError" := by
  refine ⟨incJob_iterate jobs0 jobId hid n hn, ?_, ?_⟩
  · have hl : lookupA (jobs0 ++ [(jobId, n)]) jobId = some n := by
      rw [lookupA_append_of_none _ _ _ hid]; simp [lookupA]
    rw [popJob, hl, removeA_append_of_none _ _ _ hid]
  · rw [popJob, hid]

theorem c8_job_counter_one_shot_witness :
    lookupA [("a", 7)] "b" = none
    ∧ (fun j => incJob j "b")^[2] [("a", 7)] = [("a", 7), ("b", 2)]
    ∧ popJob [("a", 7), ("b", 2)] "b" = .ok (2, [("a", 7)])
    ∧ popJob [("a", 7)] "b" = .error "KeyError" :=
  ⟨by decide, c8_job_counter_one_shot [("a", 7)] "b" 2 (by decide) (by decide)⟩

/-- C10: `get_downloaded_pages_by_job_id` for a job id that was never
incremented raises `KeyError` instead of returning 0 — `dict.pop` bypasses the
`defaultdict` factory, and only `increment_job_count` creates entries (with
the default `0` before the `+= 1`). -/
theorem c10_pop_missing_job (jobs : List (String × Nat)) (jobId : String)
    (h : lookupA jobs jobId = none) :
    popJob jobs jobId = .error "KeyError"
    ∧ incJob jobs jobId = jobs ++ [(jobId, 0 + 1)] := by
  constructor
  · rw [popJob, h]
  · rw [incJob, h]

theorem c10_pop_missing_job_witness :
    lookupA [("a", 3)] "b" = none
    ∧ popJob [("a", 3)] "b" = .error "KeyError"
    ∧ incJob [("a", 3)] "b" = [("a", 3), ("b", 1)] :=
  ⟨by decide, (c10_pop_missing_job [("a", 3)] "b" (by decide)).1,
    (c10_pop_missing_job [("a", 3)] "b" (by decide)).2⟩

/-- C9: when the awaited fetch yields no content, `save_page` leaves the
filesystem untouched: no folder is created and no file is written, for every
root, folder hint, file hint and starting filesystem. -/
theorem c9_save_page_none_noop (root foldername filename : String) (fs : FS) :
    save_page none root foldername filename fs = fs := rfl

/-- C4: name derivation is deterministic (it is a pure function of the hint)
and length-bounded.  Sanitization maps every colon, slash and hash to an
underscore; when the sanitized name's length is at or above the ceiling
(127), the derived name is the prefix of length `ceiling - 32` followed by
the hex digest of the pre-truncation name, its length is exactly the
ceiling, and no derived file or folder name ever exceeds the ceiling. -/
theorem c4_name_derivation (hint : String)
    (h : FILENAME_MAXLENGTH ≤ (subName hint).data.length) :
    (subName hint).data = hint.data.map (fun c => if c = ':' ∨ c = '/' ∨ c = '#' then '_' else c)
    ∧ deriveFileName (subName hint)
        = ⟨(subName hint).data.take (FILENAME_MAXLENGTH - 32) ++ (md5hex (subName hint)).data⟩
    ∧ (deriveFileName (subName hint)).data.length = FILENAME_MAXLENGTH
    ∧ (∀ g : String, (deriveFileName g).data.length ≤ FILENAME_MAXLENGTH)
    ∧ (∀ root foldername : String,
        (derivePageDir root foldername).data.length ≤ FOLDERNAME_MAXLENGTH
        ∨ (derivePageDir root foldername) = pathJoin root foldername) := by
  have hlen : ∀ g : String, FILENAME_MAXLENGTH ≤ g.data.length →
      (deriveFileName g).data.length = FILENAME_MAXLENGTH := by
    intro g hg
    rw [deriveFileName, if_pos hg]
    show (g.data.take (FILENAME_MAXLENGTH - (md5hex g).data.length)
      ++ (md5hex g).data).length = FILENAME_MAXLENGTH
    rw [List.length_append, List.length_take, md5hex_length]
    rw [show FILENAME_MAXLENGTH = 127 from rfl] at hg ⊢
    omega
  refine ⟨rfl, ?_, hlen _ h, ?_, ?_⟩
  · rw [deriveFileName, if_pos h, md5hex_length]
  · intro g
    by_cases hg : FILENAME_MAXLENGTH ≤ g.data.length
    · exact le_of_eq (hlen g hg)
    · rw [deriveFileName, if_neg hg]; omega
  · intro root foldername
    rw [derivePageDir]
    by_cases hg : FOLDERNAME_MAXLENGTH ≤ (pathJoin root foldername).data.length
    · rw [if_pos hg]
      left
      show ((pathJoin root foldername).data.take _ ++ _).length ≤ FOLDERNAME_MAXLENGTH
      rw [List.length_append, List.length_take, md5hex_length]
      rw [show FOLDERNAME_MAXLENGTH = 127 from rfl] at hg ⊢
      omega
    · rw [if_neg hg]
      left
      omega

theorem c4_name_derivation_witness :
    FILENAME_MAXLENGTH ≤ (subName ⟨List.replicate 130 'a'⟩).data.length
    ∧ (deriveFileName (subName ⟨List.replicate 130 'a'⟩)).data.length = FILENAME_MAXLENGTH :=
  ⟨by decide, (c4_name_derivation ⟨List.replicate 130 'a'⟩ (by decide)).2.2.1⟩

/-! ## Retry-loop lemmas -/
theorem lastTransientMsg_step (tr : Nat → Attempt) (i0 : Nat) (e0 m : String)
    (hm : transientMsg (tr i0) = m) :
    ∀ k, lastTransientMsg tr (i0 + 1) m k = lastTransientMsg tr i0 e0 (k + 1) := by
  intro k
  cases k with
  | zero => simp [lastTransientMsg, ← hm]
  | succ j =>
    show transientMsg (tr (i0 + 1 + j)) = transientMsg (tr (i0 + (j + 1)))
    rw [show i0 + 1 + j = i0 + (j + 1) by omega]

/-- Consuming `k ≤ n` transient attempts advances the loop to attempt `i0 + k`
with `n - k` attempts left, the stored error being the last consumed message. -/
theorem fetchAux_skip (tr : Nat → Attempt) (url jobId : String) :
    ∀ (k n i0 : Nat) (st : FetcherState), k ≤ n →
    (∀ j, j < k → isTransient (tr (i0 + j)) = true) →
    fetchAux tr url jobId i0 n st =
      fetchAux tr url jobId (i0 + k) (n - k)
        { st with error := lastTransientMsg tr i0 st.error k } := by
  intro k
  induction k with
  | zero =>
    intro n i0 st _ _
    simp [lastTransientMsg]
  | succ k ih =>
    intro n i0 st hkn h
    cases n with
    | zero => omega
    | succ n' =>
      have h0 : isTransient (tr (i0 + 0)) = true := h 0 (by omega)
      rw [Nat.add_zero] at h0
      have happly : ∀ (m : String), transientMsg (tr i0) = m →
          fetchAux tr url jobId (i0 + 1) n' { st with error := m } =
          fetchAux tr url jobId (i0 + (k + 1)) (n' + 1 - (k + 1))
            { st with error := lastTransientMsg tr i0 st.error (k + 1) } := by
        intro m hm
        rw [ih n' (i0 + 1) { st with error := m } (by omega)
          (fun j hj => by
            have := h (j + 1) (by omega)
            rwa [show i0 + (j + 1) = i0 + 1 + j by omega] at this)]
        rw [lastTransientMsg_step tr i0 st.error m hm]
        rw [show i0 + 1 + k = i0 + (k + 1) by omega]
        rw [show n' - k = n' + 1 - (k + 1) by omega]
      cases htr : tr i0 with
      | success c => rw [htr] at h0; simp [isTransient] at h0
      | other m => rw [htr] at h0; simp [isTransient] at h0
      | clientConnectionError m =>
        rw [fetchAux, htr]
        exact happly m (by rw [htr]; rfl)
      | serverDisconnectedError m =>
        rw [fetchAux, htr]
        exact happly m (by rw [htr]; rfl)
      | timeoutError m =>
        rw [fetchAux, htr]
        exact happly m (by rw [htr]; rfl)
      | unicodeDecodeError m =>
        rw [fetchAux, htr]
        exact happly m (by rw [htr]; rfl)
      | cancelledError =>
        rw [fetchAux, htr]
        exact happly "Cancelled Task" (by rw [htr]; rfl)

/-- C2: when every attempt for a URL fails with a retryable-transient error,
`Fetcher.fetch` performs exactly `MAXIMUM_FETCHES` (5) attempts, then returns
no content (`None`) instead of raising, records the URL in the error map
mapped to the last attempt's message, and appends the URL to the blacklist. -/
theorem c2_retry_exhaustion (tr : Nat → Attempt) (url jobId : String) (st : FetcherState)
    (h : ∀ i, i < MAXIMUM_FETCHES → isTransient (tr i) = true) :
    fetch tr url jobId st =
      .ok (none, MAXIMUM_FETCHES,
        { st with error := transientMsg (tr 4),
                  errors := updateA st.errors url (transientMsg (tr 4)),
                  black_list := st.black_list ++ [url] }) := by
  rw [fetch, fetchAux_skip tr url jobId MAXIMUM_FETCHES MAXIMUM_FETCHES 0 st (le_refl _)
    (fun j hj => by simpa using h j hj)]
  rfl

theorem c2_retry_exhaustion_witness :
    (∀ i, i < MAXIMUM_FETCHES → isTransient ((fun _ => Attempt.timeoutError "t") i) = true)
    ∧ fetch (fun _ => Attempt.timeoutError "t") "u" "j" initFetcher =
        .ok (none, MAXIMUM_FETCHES,
          { initFetcher with error := "t", errors := [("u", "t")], black_list := ["u"] }) :=
  ⟨by decide, c2_retry_exhaustion (fun _ => Attempt.timeoutError "t") "u" "j" initFetcher
    (by decide)⟩

/-- C6: `Fetcher.fetch` retries exactly on the five classified transient
errors (connection failure, peer disconnect, timeout, text-decoding failure,
cancellation), each consuming one of the fixed attempts; after `k` such
consumed attempts a success returns the content having made `k + 1` attempts,
while any other exception propagates out of the call unchanged. -/
theorem c6_error_classification (tr : Nat → Attempt) (url jobId : String)
    (st : FetcherState) (k : Nat) (hk : k < MAXIMUM_FETCHES)
    (h : ∀ i, i < k → isTransient (tr i) = true) :
    (∀ c, tr k = .success c →
      fetch tr url jobId st =
        .ok (some c, k + 1,
          { st with error := lastTransientMsg tr 0 st.error k,
                    downloaded_pages := st.downloaded_pages ++ [url],
                    jobs := incJob st.jobs jobId }))
    ∧ (∀ m, tr k = .other m → fetch tr url jobId st = .error m) := by
  have hskip := fetchAux_skip tr url jobId k MAXIMUM_FETCHES 0 st (le_of_lt hk)
    (fun j hj => by simpa using h j hj)
  rw [Nat.zero_add] at hskip
  have hn : MAXIMUM_FETCHES - k = (MAXIMUM_FETCHES - k - 1) + 1 := by
    rw [show MAXIMUM_FETCHES = 5 from rfl] at hk ⊢; omega
  constructor
  · intro c htr
    rw [fetch, hskip, hn, fetchAux, htr]
  · intro m htr
    rw [fetch, hskip, hn, fetchAux, htr]

theorem c6_error_classification_witness :
    (1 < MAXIMUM_FETCHES ∧ ∀ i, i < 1 → isTransient (tr6w i) = true)
    ∧ fetch tr6w "u" "j" initFetcher = .error "boom" :=
  ⟨⟨by decide, by decide⟩,
    (c6_error_classification tr6w "u" "j" initFetcher 1 (by decide) (by decide)).2
      "boom" rfl⟩

/-! ## Persistence lemmas -/
theorem lookupA_append_of_some {α : Type} (l l2 : List (String × α)) (k : String) (v : α)
    (h : lookupA l k = some v) : lookupA (l ++ l2) k = some v := by
  induction l with
  | nil => simp [lookupA] at h
  | cons a t ih =>
    obtain ⟨k', v'⟩ := a
    by_cases hk : k' = k
    · subst hk
      rw [lookupA, if_pos rfl] at h
      rw [List.cons_append, lookupA, if_pos rfl]
      exact h
    · rw [lookupA, if_neg hk] at h
      rw [List.cons_append, lookupA, if_neg hk]
      exact ih h

theorem countKey_append {α : Type} (l l2 : List (String × α)) (k : String) :
    countKey (l ++ l2) k = countKey l k + countKey l2 k := by
  induction l with
  | nil => simp [countKey]
  | cons a t ih =>
    obtain ⟨k', v'⟩ := a
    simp [countKey, ih]
    omega

theorem countKey_eq_zero_of_lookup_none {α : Type} (l : List (String × α)) (k : String)
    (h : lookupA l k = none) : countKey l k = 0 := by
  induction l with
  | nil => rfl
  | cons a t ih =>
    obtain ⟨k', v'⟩ := a
    rw [lookupA] at h
    by_cases hk : k' = k
    · simp [hk] at h
    · simp only [hk, if_false] at h
      simp [countKey, hk, ih h]

theorem containsAppend (l1 l2 : List String) (k : String) :
    (l1 ++ l2).contains k = (l1.contains k || l2.contains k) := by
  induction l1 with
  | nil => simp
  | cons a t ih =>
    show List.elem k (a :: (t ++ l2)) = (List.elem k (a :: t) || l2.contains k)
    rw [List.elem, List.elem]
    cases k == a with
    | true => rfl
    | false => exact ih

theorem containsSingleton (a k : String) : ([a] : List String).contains k = (k == a) := by
  show List.elem k [a] = (k == a)
  rw [List.elem]
  cases k == a <;> rfl

theorem pathJoin_ne (a b : String) : pathJoin a b ≠ a := by
  intro h
  have hl := congrArg String.length h
  rw [pathJoin, String.length_append, String.length_append] at hl
  have h1 : ("/" : String).length = 1 := rfl
  omega

theorem existsPath_false_parts (fs : FS) (p : String) (h : existsPath fs p = false) :
    fs.dirs.contains p = false ∧ lookupA fs.files p = none := by
  rw [existsPath, Bool.or_eq_false_iff] at h
  refine ⟨h.1, ?_⟩
  cases hl : lookupA fs.files p with
  | none => rfl
  | some v => rw [hl] at h; simp at h

theorem create_folder_of_exists (root fol : String) (fs : FS)
    (h : existsPath fs (derivePageDir root fol) = true) :
    create_folder root fol fs = (derivePageDir root fol, fs) := by
  rw [create_folder]; simp [h]

theorem create_folder_of_not_exists (root fol : String) (fs : FS)
    (h : existsPath fs (derivePageDir root fol) = false) :
    create_folder root fol fs =
      (derivePageDir root fol, { fs with dirs := fs.dirs ++ [derivePageDir root fol] }) := by
  rw [create_folder]; simp [h]

theorem write_file_of_exists (pd fil c : String) (fs : FS)
    (h : existsPath fs (pathJoin pd (deriveFileName fil)) = true) :
    write_file pd fil c fs = fs := by
  rw [write_file]; simp [h]

theorem write_file_of_not_exists (pd fil c : String) (fs : FS)
    (h : existsPath fs (pathJoin pd (deriveFileName fil)) = false) :
    write_file pd fil c fs =
      { fs with files := fs.files ++ [(pathJoin pd (deriveFileName fil), c)] } := by
  rw [write_file]; simp [h]

/-- C3: calling `save_page` twice with the same folder hint, file hint and
content, starting from a filesystem where the derived path does not yet
exist, yields exactly one file at the derived path holding the first-written
content, and the second call changes nothing: the existence check makes the
second write a silent no-op, never an overwrite. -/
theorem c3_idempotent_persistence (root foldername filename c : String) (fs : FS)
    (h : existsPath fs (derivedFilePath root foldername filename) = false) :
    save_page (some c) root foldername filename
        (save_page (some c) root foldername filename fs)
      = save_page (some c) root foldername filename fs
    ∧ lookupA (save_page (some c) root foldername filename fs).files
        (derivedFilePath root foldername filename) = some c
    ∧ countKey (save_page (some c) root foldername filename fs).files
        (derivedFilePath root foldername filename) = 1 := by
  obtain ⟨hdir, hfile⟩ := existsPath_false_parts fs _ h
  rw [derivedFilePath] at hdir hfile ⊢
  have hlookapp : lookupA
      (fs.files ++ [(pathJoin (derivePageDir root (subName foldername))
        (deriveFileName (subName filename)), c)])
      (pathJoin (derivePageDir root (subName foldername))
        (deriveFileName (subName filename))) = some c := by
    rw [lookupA_append_of_none _ _ _ hfile, lookupA, if_pos rfl]
  have hcountapp : countKey
      (fs.files ++ [(pathJoin (derivePageDir root (subName foldername))
        (deriveFileName (subName filename)), c)])
      (pathJoin (derivePageDir root (subName foldername))
        (deriveFileName (subName filename))) = 1 := by
    rw [countKey_append, countKey_eq_zero_of_lookup_none _ _ hfile]
    simp [countKey]
  by_cases hpd : existsPath fs (derivePageDir root (subName foldername)) = true
  · have hfs1 : save_page (some c) root foldername filename fs =
        { fs with files := fs.files ++
          [(pathJoin (derivePageDir root (subName foldername))
              (deriveFileName (subName filename)), c)] } := by
      rw [save_page, create_folder_of_exists _ _ _ hpd]
      exact write_file_of_not_exists _ _ _ _ (by rw [existsPath, hdir, hfile]; rfl)
    have hex2 : existsPath
        { fs with files := fs.files ++
          [(pathJoin (derivePageDir root (subName foldername))
              (deriveFileName (subName filename)), c)] }
        (derivePageDir root (subName foldername)) = true := by
      rw [existsPath] at hpd ⊢
      rcases Bool.or_eq_true_iff.mp hpd with hd | hf
      · show (fs.dirs.contains _ || _) = true
        rw [hd, Bool.true_or]
      · cases hlf : lookupA fs.files (derivePageDir root (subName foldername)) with
        | none => rw [hlf] at hf; simp at hf
        | some v =>
          show (_ || (lookupA (fs.files ++ _) _).isSome) = true
          rw [lookupA_append_of_some _ _ _ _ hlf]
          simp
    refine ⟨?_, by rw [hfs1]; exact hlookapp, by rw [hfs1]; exact hcountapp⟩
    rw [hfs1, save_page, create_folder_of_exists _ _ _ hex2]
    refine write_file_of_exists _ _ _ _ ?_
    rw [existsPath]
    show (_ || (lookupA (fs.files ++ _) _).isSome) = true
    rw [hlookapp]
    simp
  · have hpd' : existsPath fs (derivePageDir root (subName foldername)) = false := by
      cases hb : existsPath fs (derivePageDir root (subName foldername)) with
      | false => rfl
      | true => exact absurd hb hpd
    have hfs1 : save_page (some c) root foldername filename fs =
        { fs with
          dirs := fs.dirs ++ [derivePageDir root (subName foldername)],
          files := fs.files ++
            [(pathJoin (derivePageDir root (subName foldername))
                (deriveFileName (subName filename)), c)] } := by
      rw [save_page, create_folder_of_not_exists _ _ _ hpd']
      refine write_file_of_not_exists _ _ _ _ ?_
      rw [existsPath]
      show ((fs.dirs ++ [derivePageDir root (subName foldername)]).contains
        (pathJoin (derivePageDir root (subName foldername))
          (deriveFileName (subName filename)))
        || (lookupA fs.files (pathJoin (derivePageDir root (subName foldername))
          (deriveFileName (subName filename)))).isSome) = false
      rw [containsAppend, hdir, Bool.false_or, containsSingleton, hfile]
      rw [beq_eq_false_iff_ne.mpr (pathJoin_ne (derivePageDir root (subName foldername))
        (deriveFileName (subName filename)))]
      rfl
    have hex2 : existsPath
        { fs with
          dirs := fs.dirs ++ [derivePageDir root (subName foldername)],
          files := fs.files ++
            [(pathJoin (derivePageDir root (subName foldername))
                (deriveFileName (subName filename)), c)] }
        (derivePageDir root (subName foldername)) = true := by
      rw [existsPath]
      show ((fs.dirs ++ [derivePageDir root (subName foldername)]).contains
        (derivePageDir root (subName foldername)) || _) = true
      rw [containsAppend, containsSingleton]
      simp
    refine ⟨?_, by rw [hfs1]; exact hlookapp, by rw [hfs1]; exact hcountapp⟩
    rw [hfs1, save_page, create_folder_of_exists _ _ _ hex2]
    refine write_file_of_exists _ _ _ _ ?_
    rw [existsPath]
    show (_ || (lookupA (fs.files ++ _) _).isSome) = true
    rw [hlookapp]
    simp

theorem c3_idempotent_persistence_witness :
    existsPath { dirs := [], files := [] } (derivedFilePath "r" "f:1" "g/2") = false
    ∧ lookupA (save_page (some "z") "r" "f:1" "g/2" { dirs := [], files := [] }).files
        (derivedFilePath "r" "f:1" "g/2") = some "z"
    ∧ countKey (save_page (some "z") "r" "f:1" "g/2" { dirs := [], files := [] }).files
        (derivedFilePath "r" "f:1" "g/2") = 1 :=
  ⟨by decide, (c3_idempotent_persistence "r" "f:1" "g/2" "z" { dirs := [], files := [] }
      (by decide)).2⟩

/-- C1 counterexample: after tick 1 the URL `http://x/` is blacklisted, yet
tick 2 issues a fetch for it again (it appears among the URLs fetched after
tick 1's trace), because comment-extracted links are fetched without
consulting the blacklist — only story URLs are checked at fan-out. -/
theorem c1_blacklisted_link_refetched :
    "http://x/" ∈ afterTick1.fetcher.black_list
    ∧ "http://x/" ∈ afterTick2.trace.drop afterTick1.trace.length := by
  decide

/-- C1 (amended): the blacklist/downloaded check guards exactly the story
URLs at fan-out: every story pair selected for a sub-job has a URL that, at
task-creation time, is in neither `downloaded_pages` nor `black_list`.
(Comment-thread pages and comment-extracted links are fetched without the
check, as the counterexample shows.) -/
theorem c1_blacklist_guard_at_fanout (downloaded blackList : List String)
    (pairs : List (String × String)) (p : String × String)
    (hp : p ∈ selectedStories downloaded blackList pairs) :
    downloaded.contains p.2 = false ∧ blackList.contains p.2 = false := by
  rw [selectedStories] at hp
  have hf := (List.mem_filter.mp hp).2
  rw [Bool.not_eq_true'] at hf
  exact Bool.or_eq_false_iff.mp hf

theorem c1_blacklist_guard_at_fanout_witness :
    ("1", "u") ∈ selectedStories [] ["v"] [("1", "u")]
    ∧ ([] : List String).contains "u" = false
    ∧ (["v"] : List String).contains "u" = false :=
  ⟨by decide, c1_blacklist_guard_at_fanout [] ["v"] [("1", "u")] ("1", "u") (by decide)⟩

/-- C5 counterexample: the `downloaded` collection is not duplicate-free at
every reachable state — one tick in which a comment carries the same link
twice fetches it twice and records it twice. -/
theorem c5_downloaded_duplicate :
    afterTick5.fetcher.downloaded_pages.count "http://x/" = 2
    ∧ ¬ afterTick5.fetcher.downloaded_pages.Nodup := by
  decide

theorem fetchAux_collections (tr : Nat → Attempt) (url jobId : String) :
    ∀ (n i : Nat) (st : FetcherState) (c : Option String) (k : Nat) (st' : FetcherState),
    fetchAux tr url jobId i n st = .ok (c, k, st') →
    ((∃ d, c = some d) ∧ st'.downloaded_pages = st.downloaded_pages ++ [url]
      ∧ st'.black_list = st.black_list ∧ st'.errors = st.errors
      ∧ st'.jobs = incJob st.jobs jobId)
    ∨ (c = none ∧ st'.downloaded_pages = st.downloaded_pages
      ∧ st'.black_list = st.black_list ++ [url]
      ∧ (∃ e, st'.errors = updateA st.errors url e)
      ∧ st'.jobs = st.jobs) := by
  intro n
  induction n with
  | zero =>
    intro i st c k st' h
    rw [fetchAux] at h
    simp only [Except.ok.injEq, Prod.mk.injEq] at h
    obtain ⟨hc, _, hst⟩ := h
    subst hst
    exact Or.inr ⟨hc.symm, rfl, rfl, ⟨st.error, rfl⟩, rfl⟩
  | succ n ih =>
    intro i st c k st' h
    rw [fetchAux] at h
    cases htr : tr i with
    | success d =>
      rw [htr] at h
      simp only [Except.ok.injEq, Prod.mk.injEq] at h
      obtain ⟨hc, _, hst⟩ := h
      subst hst
      exact Or.inl ⟨⟨d, hc.symm⟩, rfl, rfl, rfl, rfl⟩
    | other m => rw [htr] at h; simp at h
    | clientConnectionError m =>
      rw [htr] at h
      rcases ih (i + 1) { st with error := m } c k st' h with hl | hr
      · exact Or.inl hl
      · exact Or.inr hr
    | serverDisconnectedError m =>
      rw [htr] at h
      rcases ih (i + 1) { st with error := m } c k st' h with hl | hr
      · exact Or.inl hl
      · exact Or.inr hr
    | timeoutError m =>
      rw [htr] at h
      rcases ih (i + 1) { st with error := m } c k st' h with hl | hr
      · exact Or.inl hl
      · exact Or.inr hr
    | unicodeDecodeError m =>
      rw [htr] at h
      rcases ih (i + 1) { st with error := m } c k st' h with hl | hr
      · exact Or.inl hl
      · exact Or.inr hr
    | cancelledError =>
      rw [htr] at h
      rcases ih (i + 1) { st with error := "Cancelled Task" } c k st' h with hl | hr
      · exact Or.inl hl
      · exact Or.inr hr

/-- C5 (amended): `downloaded_pages` and `black_list` are append-only lists,
not deduplicated sets, and no global disjointness invariant holds (see the
counterexample); what does hold is per-call exclusivity: a single completed
`fetch` call appends the URL to exactly one of the two collections —
`downloaded_pages` on success, `black_list` on retry exhaustion — and leaves
the other unchanged. -/
theorem c5_fetch_appends_to_one_collection (tr : Nat → Attempt) (url jobId : String)
    (st : FetcherState) (c : Option String) (k : Nat) (st' : FetcherState)
    (h : fetch tr url jobId st = .ok (c, k, st')) :
    ((∃ d, c = some d) ∧ st'.downloaded_pages = st.downloaded_pages ++ [url]
      ∧ st'.black_list = st.black_list)
    ∨ (c = none ∧ st'.downloaded_pages = st.downloaded_pages
      ∧ st'.black_list = st.black_list ++ [url]) := by
  rcases fetchAux_collections tr url jobId MAXIMUM_FETCHES 0 st c k st' h with hl | hr
  · exact Or.inl ⟨hl.1, hl.2.1, hl.2.2.1⟩
  · exact Or.inr ⟨hr.1, hr.2.1, hr.2.2.1⟩

theorem c5_fetch_appends_to_one_collection_witness :
    ((∃ d, (some "A" : Option String) = some d)
      ∧ fetchSuccessSt.downloaded_pages = initFetcher.downloaded_pages ++ ["u"]
      ∧ fetchSuccessSt.black_list = initFetcher.black_list)
    ∨ ((some "A" : Option String) = none
      ∧ fetchSuccessSt.downloaded_pages = initFetcher.downloaded_pages
      ∧ fetchSuccessSt.black_list = initFetcher.black_list ++ ["u"]) :=
  c5_fetch_appends_to_one_collection (fun _ => .success "A") "u" "j" initFetcher
    (some "A") 1 fetchSuccessSt (by rfl)

/-! ## Extraction round trip -/
theorem renderListing_nil : renderListing [] = [] := by simp [renderListing]

theorem renderListing_cons (b : StoryBlock) (bs : List StoryBlock) :
    renderListing (b :: bs) = renderBlock b ++ renderListing bs := by
  simp [renderListing]

theorem extractTopAux_nil (fuel : Nat) : extractTopAux fuel [] = [] := by
  cases fuel with
  | zero => rfl
  | succ f =>
    rw [extractTopAux]
    rw [splitAtFirst]
    simp [patIdOpen]

theorem extractTopAux_render (bs : List StoryBlock) :
    ∀ fuel, (∀ b ∈ bs, WfStoryBlock b) → (renderListing bs).length ≤ fuel →
    extractTopAux fuel (renderListing bs) =
      bs.map (fun b => ((⟨b.sid⟩ : String), (⟨b.url⟩ : String))) := by
  induction bs with
  | nil =>
    intro fuel _ _
    rw [renderListing_nil, extractTopAux_nil]
    rfl
  | cons b bs ih =>
    intro fuel hwf hfuel
    obtain ⟨hb1, hb2, hb3, hb3n, hb4⟩ := hwf b (List.mem_cons_self b bs)
    rw [renderListing_cons] at hfuel ⊢
    have hblen : 1 ≤ (renderBlock b).length := by
      rw [renderBlock]
      simp [patIdOpen]
    cases fuel with
    | zero =>
      rw [List.length_append] at hfuel
      omega
    | succ f =>
      have h1 : splitAtFirst patIdOpen (renderBlock b ++ renderListing bs) =
          some ([], b.sid ++ (patIdClose ++ (patHref ++ (b.url ++ (patStory ++
            (b.title ++ (patAClose ++ renderListing bs))))))) :=
        splitAtFirst_of_eq_append _ _ _ (by simp [patIdOpen])
          (by simp [renderBlock, List.append_assoc])
      have h2 : (b.sid ++ (patIdClose ++ (patHref ++ (b.url ++ (patStory ++
          (b.title ++ (patAClose ++ renderListing bs))))))).takeWhile Char.isDigit
          = b.sid := by
        show (b.sid ++ (apos :: ('>' :: (patHref ++ (b.url ++ (patStory ++
          (b.title ++ (patAClose ++ renderListing bs)))))))).takeWhile Char.isDigit = b.sid
        exact takeWhile_append_cons _ _ _ _ hb2 (by decide)
      have h3 : (b.sid ++ (patIdClose ++ (patHref ++ (b.url ++ (patStory ++
          (b.title ++ (patAClose ++ renderListing bs))))))).dropWhile Char.isDigit
          = apos :: ('>' :: (patHref ++ (b.url ++ (patStory ++
            (b.title ++ (patAClose ++ renderListing bs)))))) := by
        show (b.sid ++ (apos :: ('>' :: (patHref ++ (b.url ++ (patStory ++
          (b.title ++ (patAClose ++ renderListing bs)))))))).dropWhile Char.isDigit = _
        exact dropWhile_append_cons _ _ _ _ hb2 (by decide)
      have h5 : patIdClose.isPrefixOf (apos :: ('>' :: (patHref ++ (b.url ++ (patStory ++
          (b.title ++ (patAClose ++ renderListing bs))))))) = true := by
        show patIdClose.isPrefixOf (patIdClose ++ (patHref ++ (b.url ++ (patStory ++
          (b.title ++ (patAClose ++ renderListing bs)))))) = true
        exact isPrefixOf_append_eq_true _ _
      have h6 : splitAtFirst patHref (patHref ++ (b.url ++ (patStory ++
          (b.title ++ (patAClose ++ renderListing bs))))) =
          some ([], b.url ++ (patStory ++ (b.title ++ (patAClose ++ renderListing bs)))) :=
        splitAtFirst_of_eq_append _ _ _ (by simp [patHref]) rfl
      have h7 : splitAtFirst patStory (b.url ++ (patStory ++
          (b.title ++ (patAClose ++ renderListing bs)))) =
          some (b.url, b.title ++ (patAClose ++ renderListing bs)) := by
        show splitAtFirst ('"' :: " class=\"storylink\">".data) _ = _
        exact splitAtFirst_first_occurrence _ _ _ _ _ hb3
          (by simp [patStory, List.append_assoc])
      have h8 : splitAtFirst patAClose (b.title ++ (patAClose ++ renderListing bs)) =
          some (b.title, renderListing bs) := by
        show splitAtFirst ('<' :: "/a>".data) _ = _
        exact splitAtFirst_first_occurrence _ _ _ _ _ hb4
          (by simp [patAClose, List.append_assoc])
      have hfind : findStoryUrl (f + 1) (patHref ++ (b.url ++ (patStory ++
          (b.title ++ (patAClose ++ renderListing bs))))) =
          some (b.url, b.title ++ (patAClose ++ renderListing bs)) := by
        rw [findStoryUrl]
        simp only [h6, h7]
        rw [if_neg hb3n]
      rw [extractTopAux, h1]
      simp only [h2, h3]
      rw [if_neg hb1, if_pos h5]
      have h4 : (apos :: ('>' :: (patHref ++ (b.url ++ (patStory ++
          (b.title ++ (patAClose ++ renderListing bs))))))).drop patIdClose.length
          = patHref ++ (b.url ++ (patStory ++ (b.title ++ (patAClose ++ renderListing bs)))) :=
        rfl
      simp only [h4, hfind, h8]
      have hwf' : ∀ x ∈ bs, WfStoryBlock x := fun x hx => hwf x (List.mem_cons_of_mem b hx)
      have hfuel' : (renderListing bs).length ≤ f := by
        rw [List.length_append] at hfuel
        omega
      rw [List.map_cons]
      rw [ih f hwf' hfuel']

/-- C7: for a listing page that is exactly `K` well-formed story blocks, the
top-story extraction returns exactly the `K` `(thread-id, story-url)` pairs
in document order — in particular duplicate thread ids are preserved, since
the result is the plain map over the blocks; a comment page in which the
top-level-comment marker never occurs yields an empty link list rather than
an error; and the returned comment links are exactly the raw href captures
with `html.unescape` applied to each. -/
theorem c7_extraction (bs : List StoryBlock) (hwf : ∀ b ∈ bs, WfStoryBlock b)
    (page : String) (hnm : ∀ pre post, page.data ≠ pre ++ patComm ++ post) :
    extractTopStories ⟨renderListing bs⟩
        = bs.map (fun b => ((⟨b.sid⟩ : String), (⟨b.url⟩ : String)))
    ∧ commentLinks page = []
    ∧ (∀ q : String, commentLinks q = (commentLinksRaw q).map htmlUnescape) := by
  refine ⟨?_, ?_, ?_⟩
  · exact extractTopAux_render bs ((renderListing bs).length + 1) hwf (by omega)
  · have hnone : splitAtFirst patComm page.data = none := by
      show splitAtFirst ('<' :: "span class=\"commtext c00\">".data) page.data = none
      exact splitAtFirst_eq_none _ _ _ hnm
    rw [commentLinks, commentBodies, extractComments, hnone]
    rfl
  · intro q
    rw [commentLinks, commentLinksRaw, List.map_flatMap]

theorem c7_extraction_witness :
    (∀ b ∈ [storyBlockA, storyBlockB], WfStoryBlock b)
    ∧ extractTopStories ⟨renderListing [storyBlockA, storyBlockB]⟩
        = [storyBlockA, storyBlockB].map (fun b => ((⟨b.sid⟩ : String), (⟨b.url⟩ : String)))
    ∧ commentLinks "hello" = [] :=
  ⟨by decide,
    (c7_extraction [storyBlockA, storyBlockB] (by decide) "hello"
      (fun pre post hh => by
        have hl := congrArg List.length hh
        simp [patComm] at hl
        omega)).1,
    (c7_extraction [storyBlockA, storyBlockB] (by decide) "hello"
      (fun pre post hh => by
        have hl := congrArg List.length hh
        simp [patComm] at hl
        omega)).2.1⟩
